import Mathlib

/-!
Shallow embedding of the Maketon check-in / danger-zone core:
`server/time.js` (day-key calendar) and the check-in module
(`asLocation`, `markMissing`, `getOrCreateUser`, `normalizeCheckInNote`,
`pushCheckInHistory`, `checkIn`, `sweepForBrokenStreaks`, `dangerZones`).

Modelling conventions:
- A JS `Date` / timestamp is a `Nat`, milliseconds since the Unix epoch
  (the source only ever handles `new Date()` values, all far past 1970).
- A finite JS number is an `Int`; a field whose `Number(...)` coercion may
  be non-finite (NaN/Infinity) is an `Option Int` with `none` = non-finite.
  (Fractional coordinates do not affect any control flow modelled here.)
- JS `null`/`undefined` on strings and objects is `Option`, with JS string
  truthiness (`!s` true for the empty string) modelled explicitly.
- `state.users` (a JS `Map` keyed by id, insertion ordered) is a
  `List User`, looked up by the `id` field; `state.makeId()` (nanoid in
  the source) is a counter guaranteeing fresh identifiers.
- `Date.prototype.toISOString()` is an injective rendering of the
  timestamp; danger-zone `lastSeenAt` and history `at` keep the `Nat`
  timestamp itself.
-/

namespace Maketon

/-! ## server/time.js -/

/-- Source `pad2(n)`: `String(n).padStart(2, "0")` for a non-negative `n`. -/
def pad2 (n : Nat) : String :=
  if n < 10 then "0" ++ toString n else toString n

def msPerDay : Nat := 86400000

/-- UTC civil day number of a timestamp: what `getUTCFullYear/Month/Date`
are computed from. -/
def utcDayNum (t : Nat) : Nat := t / msPerDay

/-- Gregorian (year, month, day) of a day number counted from 1970-01-01,
the standard civil-from-days algorithm; this is the calendar arithmetic
behind JS `Date.prototype.getUTCFullYear/getUTCMonth/getUTCDate`. -/
def civilFromDays (days : Nat) : Nat × Nat × Nat :=
  let z := days + 719468
  let era := z / 146097
  let doe := z % 146097
  let yoe := (doe - doe / 1460 + doe / 36524 - doe / 146096) / 365
  let y := yoe + era * 400
  let doy := doe - (365 * yoe + yoe / 4 - yoe / 100)
  let mp := (5 * doy + 2) / 153
  let d := doy - (153 * mp + 2) / 5 + 1
  let m := if mp < 10 then mp + 3 else mp - 9
  (if m ≤ 2 then y + 1 else y, m, d)

/-- Day-key string of a day number: the body of `utcDayKey` in
`server/time.js` (`"${y}-${m}-${d}"` with zero-padded month/day). -/
def dayKeyOfDayNum (n : Nat) : String :=
  let c := civilFromDays n
  toString c.1 ++ "-" ++ pad2 c.2.1 ++ "-" ++ pad2 c.2.2

/-- Source `utcDayKey(date)` from `server/time.js`. -/
def utcDayKey (t : Nat) : String := dayKeyOfDayNum (utcDayNum t)

/-- Source `utcYesterdayDayKey(date)`: the source copies the date and runs
`setUTCDate(getUTCDate() - 1)`, which moves the civil day back exactly one
day (JS handles month/year borrows); on day numbers that is `- 1`. -/
def utcYesterdayDayKey (t : Nat) : String := dayKeyOfDayNum (utcDayNum t - 1)

/-- JS string truthiness test `!s` for a nullable string: true on
`null`/`undefined` and on the empty string. -/
def jsFalsyStr : Option String → Bool
  | none => true
  | some s => s = ""

/-- Source `isOlderThanYesterdayDayKey(lastDayKey, now)` from
`server/time.js`. -/
def isOlderThanYesterdayDayKey (lastDayKey : Option String) (now : Nat) : Bool :=
  if jsFalsyStr lastDayKey then false
  else
    let yesterdayKey := utcYesterdayDayKey now
    let todayKey := utcDayKey now
    lastDayKey != some todayKey && lastDayKey != some yesterdayKey

/-! ## Data model -/

structure Location where
  lat : Int
  lng : Int
deriving Repr, DecidableEq

/-- The raw `location` argument: an object whose `lat`/`lng` coerce via
`Number(...)` to a finite value (`some`) or not (`none`). -/
structure LocInput where
  lat : Option Int
  lng : Option Int
deriving Repr, DecidableEq

/-- Source `asLocation(input)`: null input or a non-finite coordinate gives
null. -/
def asLocation : Option LocInput → Option Location
  | none => none
  | some i =>
    match i.lat, i.lng with
    | some lat, some lng => some { lat := lat, lng := lng }
    | _, _ => none

structure HistEntry where
  dayKey : String
  /-- the source's `at` field (`at` is reserved in Lean): check-in time,
  serialized with `toISOString` -/
  atMs : Nat
  location : Option Location
  note : Option String
deriving Repr, DecidableEq

structure DangerZone where
  id : Nat
  type : String
  reason : String
  userId : String
  name : String
  location : Option Location
  lastSeenAt : Nat
deriving Repr, DecidableEq

structure User where
  id : String
  name : String
  streak : Nat
  lastCheckInAt : Option Nat
  lastCheckInDayKey : Option String
  lastKnownLocation : Option Location
  checkInHistory : List HistEntry
  status : String
  missingSince : Option Nat
  dangerZone : Option DangerZone
deriving Repr, DecidableEq

/-- The mutable server state: the `users` map (insertion-ordered, keyed by
`User.id`) and the fresh-id source behind `state.makeId()`. -/
structure SState where
  users : List User
  nextId : Nat
deriving Repr, DecidableEq

def findUser (users : List User) (id : String) : Option User :=
  users.find? (fun u => u.id = id)

/-- Write back a mutation of the user object stored under `id` (JS mutates
the object held in the map in place). -/
def updateUser (users : List User) (id : String) (u : User) : List User :=
  users.map (fun v => if v.id = id then u else v)

/-- JS `s || dflt` for a nullable string: the default replaces
`null`/`undefined` and the empty string. -/
def jsOr (s : Option String) (dflt : String) : String :=
  match s with
  | none => dflt
  | some v => if v = "" then dflt else v

/-- JS `String.prototype.trim`: strip whitespace from both ends (written
over the character list so that it evaluates inside the kernel). -/
def jsTrim (s : String) : String :=
  ((s.toList.dropWhile Char.isWhitespace).reverse.dropWhile
    Char.isWhitespace).reverse.asString

/-- JS `String.prototype.slice(0, n)`: the first `n` characters. -/
def jsSlice (s : String) (n : Nat) : String :=
  (s.toList.take n).asString

/-! ## Registry: getOrCreateUser -/

/-- Source `getOrCreateUser(state, { userId, name })`.  `String(userId || "")`
is `userId.getD ""`; `throw new Error("userId is required")` is the
`.error` branch. -/
def getOrCreateUser (st : SState) (userId name : Option String) :
    Except String (User × SState) :=
  let id := jsTrim (userId.getD "")
  if id = "" then .error "userId is required"
  else
    match findUser st.users id with
    | none =>
      let user : User := {
        id := id
        name := jsSlice (jsOr name "Unknown Survivor") 60
        streak := 0
        lastCheckInAt := none
        lastCheckInDayKey := none
        lastKnownLocation := none
        checkInHistory := []
        status := "unknown"
        missingSince := none
        dangerZone := none }
      .ok (user, { st with users := st.users ++ [user] })
    | some user =>
      if jsFalsyStr name then .ok (user, st)
      else
        let user' := { user with name := jsSlice (name.getD "") 60 }
        .ok (user', { st with users := updateUser st.users id user' })

/-! ## Check-in -/

/-- Source `normalizeCheckInNote(value)`. -/
def normalizeCheckInNote (value : Option String) : Option String :=
  let s := jsTrim (value.getD "")
  if s = "" then none else some (jsSlice s 180)

/-- The `findIndex((x) => x?.dayKey === dayKey)` scan of
`pushCheckInHistory`, as the index of the first entry carrying the key. -/
def findDayIdx (k : String) : List HistEntry → Option Nat
  | [] => none
  | x :: rest =>
    if x.dayKey = k then some 0 else (findDayIdx k rest).map (· + 1)

/-- Source `pushCheckInHistory(user, { dayKey, at, location, note })`: replace the
existing entry for the same day in place, otherwise append; then
`splice(0, length - 21)` keeps only the last 21 entries. -/
def pushCheckInHistory (user : User) (e : HistEntry) : User :=
  let hist := user.checkInHistory
  let hist' :=
    match findDayIdx e.dayKey hist with
    | some idx => hist.set idx e
    | none => hist ++ [e]
  let hist'' :=
    if hist'.length > 21 then hist'.drop (hist'.length - 21) else hist'
  { user with checkInHistory := hist'' }

/-- The mutation `checkIn` applies to the resolved user object (everything
between the two `getOrCreateUser`/`state.users` interactions of the source
function, in source order). -/
def checkInUserUpdate (user0 : User) (location : Option LocInput)
    (note : Option String) (now : Nat) : User :=
  let todayKey := utcDayKey now
  let yesterdayKey := utcYesterdayDayKey now
  let newLocation := asLocation location
  let user :=
    match newLocation with
    | some l => { user0 with lastKnownLocation := some l }
    | none => user0
  let cleanNote := normalizeCheckInNote note
  let user := pushCheckInHistory user
    { dayKey := todayKey, atMs := now, location := newLocation, note := cleanNote }
  let user :=
    if user.lastCheckInDayKey = some todayKey then
      user
    else if user.lastCheckInDayKey = some yesterdayKey then
      { user with streak := max 1 (user.streak + 1) }
    else
      { user with streak := 1 }
  { user with
    lastCheckInAt := some now
    lastCheckInDayKey := some todayKey
    status := "ok"
    missingSince := none
    dangerZone := none }

/-- Source `checkIn(state, { userId, name, location, note }, now)`: resolve
or create the user, apply `checkInUserUpdate` to it, store the result (JS
mutates the object held in the map). -/
def checkIn (st : SState) (userId name : Option String)
    (location : Option LocInput) (note : Option String) (now : Nat) :
    Except String (User × SState) :=
  match getOrCreateUser st userId name with
  | .error e => .error e
  | .ok (user, st1) =>
    let user := checkInUserUpdate user location note now
    .ok (user, { st1 with users := updateUser st1.users user.id user })

/-! ## Missing / danger-zone deriver -/

/-- Source `markMissing(state, user, now, reason)`: mutates the user and consumes
one fresh id from `state.makeId()` when a record is materialized.  Both
branches of the source's `if (location)` build the same record shape; the
truthy branch stores the (non-null) location, the other stores `null`. -/
def markMissing (nextId : Nat) (user : User) (now : Nat) (reason : String) :
    User × Nat :=
  if user.status = "missing" then (user, nextId)
  else
    let user := { user with
      status := "missing"
      missingSince := some (user.lastCheckInAt.getD now) }
    let location := user.lastKnownLocation
    let user :=
      match location with
      | some l =>
        { user with dangerZone := some {
            id := nextId
            type := "danger-zone"
            reason := reason
            userId := user.id
            name := user.name
            location := some l
            lastSeenAt := user.lastCheckInAt.getD now } }
      | none =>
        { user with dangerZone := some {
            id := nextId
            type := "danger-zone"
            reason := reason
            userId := user.id
            name := user.name
            location := none
            lastSeenAt := user.lastCheckInAt.getD now } }
    (user, nextId + 1)

/-- The loop body of `sweepForBrokenStreaks`, over the map's values in
order, threading the fresh-id source. -/
def sweepUsers (nextId : Nat) (now : Nat) : List User → List User × Nat
  | [] => ([], nextId)
  | user :: rest =>
    if user.status = "missing" then
      let r := sweepUsers nextId now rest
      (user :: r.1, r.2)
    else if isOlderThanYesterdayDayKey user.lastCheckInDayKey now then
      let m := markMissing nextId user now "streak-broken"
      let r := sweepUsers m.2 now rest
      (m.1 :: r.1, r.2)
    else
      let r := sweepUsers nextId now rest
      (user :: r.1, r.2)

/-- Source `sweepForBrokenStreaks(state, now)`. -/
def sweepForBrokenStreaks (st : SState) (now : Nat) : SState :=
  let r := sweepUsers st.nextId now st.users
  { users := r.1, nextId := r.2 }

/-- Source `dangerZones(state, now)`: sweep first, then collect every missing
user's non-null `dangerZone` in registry order. -/
def dangerZones (st : SState) (now : Nat) : List DangerZone × SState :=
  let st' := sweepForBrokenStreaks st now
  (st'.users.filterMap
    (fun user => if user.status = "missing" then user.dangerZone else none),
   st')

/-! ## Operation runner (for whole-run invariants)

The four operations the core exposes (§6 of the spec); a failed call
leaves the state untouched (the thrown error reaches the HTTP layer). -/

inductive Op where
  | getOrCreate (userId name : Option String)
  | checkin (userId name : Option String) (location : Option LocInput)
      (note : Option String) (now : Nat)
  | sweep (now : Nat)
  | listDangerZones (now : Nat)
deriving Repr

def applyOp (st : SState) : Op → SState
  | .getOrCreate userId name =>
    match getOrCreateUser st userId name with
    | .ok r => r.2
    | .error _ => st
  | .checkin userId name location note now =>
    match checkIn st userId name location note now with
    | .ok r => r.2
    | .error _ => st
  | .sweep now => sweepForBrokenStreaks st now
  | .listDangerZones now => (dangerZones st now).2

/-- The empty registry a fresh process starts from. -/
def initState : SState := { users := [], nextId := 0 }

def runOps (ops : List Op) : SState := ops.foldl applyOp initState

/-! ## Invariant predicates -/

/-- History invariant claimed by the spec: at most 21 entries and no two
entries sharing a day key. -/
def histOK (h : List HistEntry) : Prop :=
  h.length ≤ 21 ∧ (h.map HistEntry.dayKey).Nodup

/-- Every user stored in the registry satisfies `histOK`. -/
def usersHistOK (st : SState) : Prop := ∀ u ∈ st.users, histOK u.checkInHistory

/-! ## Concrete evaluation points (used by witnesses and counterexamples) -/

/-- Timestamp 2025-10-10T00:00:00.000Z. -/
def tD : Nat := 1760054400000

/-- One hour after `tD`, same UTC day. -/
def tDh : Nat := tD + 3600000

/-- Start of the next UTC day after `tD`. -/
def tD1 : Nat := tD + msPerDay

/-- Three UTC days after `tD` (so `tD`'s day key is stale). -/
def tD3 : Nat := tD + 3 * msPerDay

/-- Fallback user for `Option.getD` extraction of call results. -/
def defaultUser : User := {
  id := "-"
  name := "-"
  streak := 0
  lastCheckInAt := none
  lastCheckInDayKey := none
  lastKnownLocation := none
  checkInHistory := []
  status := "unknown"
  missingSince := none
  dangerZone := none }

def okUser (r : Except String (User × SState)) : User :=
  (r.toOption.map Prod.fst).getD defaultUser

def okState (r : Except String (User × SState)) : SState :=
  (r.toOption.map Prod.snd).getD initState

/-- Registry state after `p1` checks in at `tD` with no location. -/
def c1st1 : SState := okState (checkIn initState (some "p1") none none none tD)

/-- Danger-zone query on that state three days later. -/
def c1res : List DangerZone × SState := dangerZones c1st1 tD3

/-- The stored `p1` after that query. -/
def c1user : User := (findUser c1res.2.users "p1").getD defaultUser

/-- A participant with a stale check-in day, no location, status ok. -/
def c1wU : User := { defaultUser with
  id := "p9", name := "N", streak := 2,
  lastCheckInAt := some tD, lastCheckInDayKey := some (utcDayKey tD),
  status := "ok" }

def c1wSt : SState := { users := [c1wU], nextId := 5 }

def c2call : Except String (User × SState) :=
  getOrCreateUser initState (some "p2") none

def c2u0 : User := okUser c2call

def c2stA : SState := okState c2call

def c2check : Except String (User × SState) :=
  checkIn initState (some "p2") none none none tD

def c4check : Except String (User × SState) :=
  checkIn c1res.2 (some "p1") none none none tD3

def c5ops : List Op := [Op.checkin (some "p5") (some "Eve") none none tD]

def c5u : User := (runOps c5ops).users.headD defaultUser

def c5e : HistEntry :=
  { dayKey := utcDayKey tD, atMs := tDh, location := none, note := none }

/-- An already-missing participant (as produced by an earlier sweep). -/
def c6u : User := { defaultUser with
  id := "p6", streak := 1,
  lastCheckInAt := some tD, lastCheckInDayKey := some (utcDayKey tD),
  status := "missing", missingSince := some tD,
  dangerZone := some {
    id := 3, type := "danger-zone", reason := "streak-broken",
    userId := "p6", name := "-", location := none, lastSeenAt := tD } }

def c6st : SState := { users := [c6u], nextId := 4 }

/-- A stale, not-yet-missing participant with a known location. -/
def c7u : User := { defaultUser with
  id := "p7", name := "G", streak := 4,
  lastCheckInAt := some tD, lastCheckInDayKey := some (utcDayKey tD),
  lastKnownLocation := some { lat := 1, lng := 2 },
  status := "ok" }

def c9call1 : Except String (User × SState) :=
  getOrCreateUser initState (some "p8") (some "AliceOriginal")

/-- The participant after a repeat `getOrCreateUser` carrying name "Bo". -/
def c9u2 : User := { okUser c9call1 with name := jsSlice "Bo" 60 }

/-- The registry after that repeat call: the stored entry updated in place. -/
def c9st2 : SState :=
  { okState c9call1 with
      users := updateUser (okState c9call1).users
        (jsTrim ((some "p8" : Option String).getD "")) c9u2 }

def c10loc : LocInput := { lat := some 10, lng := some 20 }

def c10call0 : Except String (User × SState) :=
  getOrCreateUser initState (some "pX") none

def c10call1 : Except String (User × SState) :=
  checkIn initState (some "pX") none (some c10loc) (some "fine") tD

def c10call2 : Except String (User × SState) :=
  checkIn (okState c10call1) (some "pX") none none none tDh

end Maketon

namespace Maketon

/-! # Projection lemmas: which fields each mutation leaves alone -/

@[simp] theorem pushCheckInHistory_id (u : User) (e : HistEntry) :
    (pushCheckInHistory u e).id = u.id := rfl

@[simp] theorem pushCheckInHistory_name (u : User) (e : HistEntry) :
    (pushCheckInHistory u e).name = u.name := rfl

@[simp] theorem pushCheckInHistory_streak (u : User) (e : HistEntry) :
    (pushCheckInHistory u e).streak = u.streak := rfl

@[simp] theorem pushCheckInHistory_lastCheckInAt (u : User) (e : HistEntry) :
    (pushCheckInHistory u e).lastCheckInAt = u.lastCheckInAt := rfl

@[simp] theorem pushCheckInHistory_lastCheckInDayKey (u : User) (e : HistEntry) :
    (pushCheckInHistory u e).lastCheckInDayKey = u.lastCheckInDayKey := rfl

@[simp] theorem pushCheckInHistory_lastKnownLocation (u : User) (e : HistEntry) :
    (pushCheckInHistory u e).lastKnownLocation = u.lastKnownLocation := rfl

@[simp] theorem pushCheckInHistory_status (u : User) (e : HistEntry) :
    (pushCheckInHistory u e).status = u.status := rfl

@[simp] theorem checkInUserUpdate_status (u : User) (loc : Option LocInput)
    (note : Option String) (now : Nat) :
    (checkInUserUpdate u loc note now).status = "ok" := rfl

@[simp] theorem checkInUserUpdate_missingSince (u : User) (loc : Option LocInput)
    (note : Option String) (now : Nat) :
    (checkInUserUpdate u loc note now).missingSince = none := rfl

@[simp] theorem checkInUserUpdate_dangerZone (u : User) (loc : Option LocInput)
    (note : Option String) (now : Nat) :
    (checkInUserUpdate u loc note now).dangerZone = none := rfl

@[simp] theorem checkInUserUpdate_lastCheckInAt (u : User) (loc : Option LocInput)
    (note : Option String) (now : Nat) :
    (checkInUserUpdate u loc note now).lastCheckInAt = some now := rfl

@[simp] theorem checkInUserUpdate_lastCheckInDayKey (u : User) (loc : Option LocInput)
    (note : Option String) (now : Nat) :
    (checkInUserUpdate u loc note now).lastCheckInDayKey = some (utcDayKey now) := rfl

@[simp] theorem checkInUserUpdate_id (u : User) (loc : Option LocInput)
    (note : Option String) (now : Nat) :
    (checkInUserUpdate u loc note now).id = u.id := by
  unfold checkInUserUpdate
  cases asLocation loc
  all_goals
    dsimp only
    split_ifs <;> rfl

theorem checkInUserUpdate_lastKnownLocation (u : User) (loc : Option LocInput)
    (note : Option String) (now : Nat) :
    (checkInUserUpdate u loc note now).lastKnownLocation =
      match asLocation loc with
      | some l => some l
      | none => u.lastKnownLocation := by
  unfold checkInUserUpdate
  cases asLocation loc
  all_goals
    dsimp only
    split_ifs <;> rfl

theorem findUser_some_id (users : List User) (id : String) (u : User)
    (h : findUser users id = some u) : u.id = id := by
  have := List.find?_some h
  simpa using this

theorem findUser_mem (users : List User) (id : String) (u : User)
    (h : findUser users id = some u) : u ∈ users :=
  List.mem_of_find?_eq_some h

theorem findUser_updateUser_self (users : List User) (id : String) (v : User)
    (hv : v.id = id) (h : (findUser users id).isSome) :
    findUser (updateUser users id v) v.id = some v := by
  rw [hv]
  induction users with
  | nil => simp [findUser] at h
  | cons a t ih =>
    by_cases ha : a.id = id
    · simp [findUser, updateUser, ha, hv]
    · have h' : (findUser t id).isSome := by
        simpa [findUser, List.find?_cons_of_neg, ha] using h
      have goal := ih h'
      simpa [findUser, updateUser, ha, List.find?_cons_of_neg] using goal

theorem findUser_updateUser_key (users : List User) (id : String) (v : User)
    (hv : v.id = id) (h : (findUser users id).isSome) :
    findUser (updateUser users id v) id = some v := by
  have hw := findUser_updateUser_self users id v hv h
  rwa [hv] at hw

theorem checkInUserUpdate_streak (u : User) (loc : Option LocInput)
    (note : Option String) (now : Nat) :
    (checkInUserUpdate u loc note now).streak =
      if u.lastCheckInDayKey = some (utcDayKey now) then u.streak
      else if u.lastCheckInDayKey = some (utcYesterdayDayKey now) then
        max 1 (u.streak + 1)
      else 1 := by
  unfold checkInUserUpdate
  cases asLocation loc
  all_goals
    dsimp only
    simp only [pushCheckInHistory_lastCheckInDayKey]
    split_ifs <;> rfl

/-! # getOrCreateUser lemmas -/

theorem getOrCreateUser_isOk_iff (st : SState) (uid nm : Option String) :
    (getOrCreateUser st uid nm).isOk = false ↔ jsTrim (uid.getD "") = "" := by
  simp only [getOrCreateUser]
  split
  next hid => simp [hid, Except.isOk, Except.toBool]
  next hid =>
    split
    next hf => simp [hid, Except.isOk, Except.toBool]
    next user hf => split <;> simp [hid, Except.isOk, Except.toBool]

theorem getOrCreateUser_ok_find (st : SState) (uid nm : Option String)
    (u : User) (st' : SState)
    (h : getOrCreateUser st uid nm = .ok (u, st')) :
    u.id = jsTrim (uid.getD "") ∧ findUser st'.users u.id = some u := by
  simp only [getOrCreateUser] at h
  split at h
  next hid => exact absurd h (by simp)
  next hid =>
    split at h
    next hf =>
      simp only [Except.ok.injEq, Prod.mk.injEq] at h
      obtain ⟨hu, hst⟩ := h
      subst hu
      subst hst
      refine ⟨rfl, ?_⟩
      simp only [findUser, List.find?_append]
      have hnone : List.find? (fun v => v.id = jsTrim (uid.getD "")) st.users = none := hf
      simp [hnone]
    next user hf =>
      have huid : user.id = jsTrim (uid.getD "") := findUser_some_id _ _ _ hf
      split at h <;>
          simp only [Except.ok.injEq, Prod.mk.injEq] at h <;>
          obtain ⟨hu, hst⟩ := h <;> subst hu <;> subst hst
      · exact ⟨huid, by rw [huid]; exact hf⟩
      · exact ⟨huid, findUser_updateUser_self _ _ _ huid (by simp [hf])⟩

/-! # Claim C3 -/

/-- C3: the claim as stated is false at the empty string: JS `!lastDayKey`
is true for `""`, so `isOlderThanYesterdayDayKey` returns false there even
though `""` is a present value different from both allowed day keys. -/
theorem C3_counterexample :
    isOlderThanYesterdayDayKey (some "") tD = false
    ∧ "" ≠ utcDayKey tD ∧ "" ≠ utcYesterdayDayKey tD := by decide

/-- C3 (amended): `isStale(lastDayKey, now)` is true exactly when a value
is present, is not the empty string (a JS-falsy value treated like
absent), and differs from both today's and yesterday's day keys; it is
false when the value is absent, empty, or equals one of those two keys
(so in particular true on every other value, future day keys included). -/
theorem C3_isStale_characterization (k : Option String) (now : Nat) :
    isOlderThanYesterdayDayKey k now = true ↔
      ∃ s, k = some s ∧ s ≠ "" ∧ s ≠ utcDayKey now ∧ s ≠ utcYesterdayDayKey now := by
  cases k with
  | none => simp [isOlderThanYesterdayDayKey, jsFalsyStr]
  | some s =>
    by_cases hs : s = ""
    · subst hs
      simp [isOlderThanYesterdayDayKey, jsFalsyStr]
    · simp [isOlderThanYesterdayDayKey, jsFalsyStr, hs]

/-! # Claim C8 -/

/-- C8: `checkIn` and `getOrCreateUser` fail exactly when the supplied id
trims the empty; every other input (any name, any location object however
malformed, any note, any time) yields a successful result. -/
theorem C8_invalid_argument (st : SState) (userId name : Option String)
    (loc : Option LocInput) (note : Option String) (now : Nat) :
    ((checkIn st userId name loc note now).isOk = false
        ↔ jsTrim (userId.getD "") = "")
    ∧ ((getOrCreateUser st userId name).isOk = false
        ↔ jsTrim (userId.getD "") = "") := by
  have hg := getOrCreateUser_isOk_iff st userId name
  refine ⟨?_, hg⟩
  unfold checkIn
  cases h : getOrCreateUser st userId name with
  | error e =>
    have : jsTrim (userId.getD "") = "" := by
      apply hg.mp
      simp [h, Except.isOk, Except.toBool]
    simp [this, Except.isOk, Except.toBool]
  | ok r =>
    have : ¬ jsTrim (userId.getD "") = "" := by
      intro hempty
      have := hg.mpr hempty
      rw [h] at this
      simp [Except.isOk, Except.toBool] at this
    simp [this, Except.isOk, Except.toBool]

/-! # Claim C2 -/

/-- C2: a successful check-in maps the streak through exactly the
three-way comparison of the participant's previous `lastCheckInDayKey`
(the one `getOrCreateUser` resolved, before this call's updates) against
today's and yesterday's day keys: same day leaves it, yesterday gives
`max 1 (streak + 1)`, anything else (absent included) gives exactly 1. -/
theorem C2_streak_transition (st : SState) (userId name : Option String)
    (loc : Option LocInput) (note : Option String) (now : Nat)
    (u0 : User) (stA : SState) (u1 : User) (st1 : SState)
    (hg : getOrCreateUser st userId name = .ok (u0, stA))
    (hc : checkIn st userId name loc note now = .ok (u1, st1)) :
    u1.streak =
      if u0.lastCheckInDayKey = some (utcDayKey now) then u0.streak
      else if u0.lastCheckInDayKey = some (utcYesterdayDayKey now) then
        max 1 (u0.streak + 1)
      else 1 := by
  unfold checkIn at hc
  rw [hg] at hc
  simp only [Except.ok.injEq, Prod.mk.injEq] at hc
  obtain ⟨hu, -⟩ := hc
  subst hu
  exact checkInUserUpdate_streak u0 loc note now

/-! # Claim C4 -/

/-- C4: whatever the participant's prior state, a successful check-in
leaves it with status ok, no `missingSince`, a null `dangerZone`,
`lastCheckInAt = now` and `lastCheckInDayKey` = today's key, and that is
also what the registry stores for the id. -/
theorem C4_checkin_clears (st : SState) (userId name : Option String)
    (loc : Option LocInput) (note : Option String) (now : Nat)
    (u1 : User) (st1 : SState)
    (hc : checkIn st userId name loc note now = .ok (u1, st1)) :
    u1.status = "ok" ∧ u1.missingSince = none ∧ u1.dangerZone = none
    ∧ u1.lastCheckInAt = some now
    ∧ u1.lastCheckInDayKey = some (utcDayKey now)
    ∧ findUser st1.users u1.id = some u1 := by
  unfold checkIn at hc
  cases hg : getOrCreateUser st userId name with
  | error e => rw [hg] at hc; exact absurd hc (by simp)
  | ok r =>
    obtain ⟨u0, stA⟩ := r
    rw [hg] at hc
    simp only [Except.ok.injEq, Prod.mk.injEq] at hc
    obtain ⟨hu, hst⟩ := hc
    subst hu
    subst hst
    refine ⟨rfl, rfl, rfl, rfl, rfl, ?_⟩
    have hfind := (getOrCreateUser_ok_find st userId name u0 stA hg).2
    have hid : (checkInUserUpdate u0 loc note now).id = u0.id :=
      checkInUserUpdate_id u0 loc note now
    rw [hid]
    exact findUser_updateUser_key stA.users u0.id _ hid (by simp [hfind])

/-! # Claim C9 -/

/-- C9: once `getOrCreateUser` has returned a participant, any repeat call
with the same id resolves to an existing entry (the stored list never
grows), and a repeat call with a non-empty name returns the same
participant with only the display name replaced by the 60-character
truncation, the registry being the in-place update of that entry. -/
theorem C9_getOrCreate_idempotent (st : SState) (uid nm1 : Option String)
    (u1 : User) (st1 : SState)
    (h1 : getOrCreateUser st uid nm1 = .ok (u1, st1)) :
    (∀ nm2, ∃ u2 st2, getOrCreateUser st1 uid nm2 = .ok (u2, st2)
        ∧ st2.users.length = st1.users.length)
    ∧ (∀ s : String, s ≠ "" →
        getOrCreateUser st1 uid (some s) =
          .ok ({ u1 with name := jsSlice s 60 },
            { st1 with
              users := updateUser st1.users (jsTrim (uid.getD ""))
                { u1 with name := jsSlice s 60 } })) := by
  obtain ⟨hid, hfind⟩ := getOrCreateUser_ok_find st uid nm1 u1 st1 h1
  have hne : ¬ jsTrim (uid.getD "") = "" := by
    intro hempty
    have := (getOrCreateUser_isOk_iff st uid nm1).mpr hempty
    rw [h1] at this
    simp [Except.isOk, Except.toBool] at this
  rw [hid] at hfind
  constructor
  · intro nm2
    simp only [getOrCreateUser, if_neg hne, hfind]
    split
    · exact ⟨u1, st1, rfl, rfl⟩
    · exact ⟨_, _, rfl, by simp [updateUser]⟩
  · intro s hs
    have hfalsy : jsFalsyStr (some s) = false := by simp [jsFalsyStr, hs]
    simp only [getOrCreateUser, if_neg hne, hfind, hfalsy]
    simp

/-! # History lemmas -/

theorem findDayIdx_lt (k : String) (l : List HistEntry) (i : Nat)
    (h : findDayIdx k l = some i) : i < l.length := by
  induction l generalizing i with
  | nil => simp [findDayIdx] at h
  | cons a t ih =>
    simp only [findDayIdx] at h
    by_cases ha : a.dayKey = k
    · rw [if_pos ha] at h
      cases h
      simp
    · rw [if_neg ha] at h
      cases hft : findDayIdx k t with
      | none => rw [hft] at h; simp at h
      | some j =>
        rw [hft] at h
        simp at h
        subst h
        have := ih j hft
        simp only [List.length_cons]
        omega

theorem findDayIdx_set_map (e : HistEntry) (l : List HistEntry) (i : Nat)
    (h : findDayIdx e.dayKey l = some i) :
    (l.set i e).map HistEntry.dayKey = l.map HistEntry.dayKey := by
  induction l generalizing i with
  | nil => simp [findDayIdx] at h
  | cons a t ih =>
    simp only [findDayIdx] at h
    by_cases ha : a.dayKey = e.dayKey
    · rw [if_pos ha] at h
      cases h
      simp [List.set, ha]
    · rw [if_neg ha] at h
      cases hft : findDayIdx e.dayKey t with
      | none => rw [hft] at h; simp at h
      | some j =>
        rw [hft] at h
        simp at h
        subst h
        simp only [List.set, List.map_cons, ih j hft]

theorem findDayIdx_none_forall (k : String) (l : List HistEntry)
    (h : findDayIdx k l = none) : ∀ x ∈ l, x.dayKey ≠ k := by
  induction l with
  | nil => intro x hx; cases hx
  | cons a t ih =>
    simp only [findDayIdx] at h
    by_cases ha : a.dayKey = k
    · rw [if_pos ha] at h; cases h
    · rw [if_neg ha] at h
      cases hft : findDayIdx k t with
      | some j => rw [hft] at h; simp at h
      | none =>
        intro x hx
        rcases List.mem_cons.mp hx with rfl | hx'
        · exact ha
        · exact ih hft x hx'

theorem find?_set_eq (e : HistEntry) (l : List HistEntry) (i : Nat)
    (h : findDayIdx e.dayKey l = some i) :
    (l.set i e).find? (fun x => x.dayKey = e.dayKey) = some e := by
  induction l generalizing i with
  | nil => simp [findDayIdx] at h
  | cons a t ih =>
    simp only [findDayIdx] at h
    by_cases ha : a.dayKey = e.dayKey
    · rw [if_pos ha] at h
      cases h
      simp [List.set]
    · rw [if_neg ha] at h
      cases hft : findDayIdx e.dayKey t with
      | none => rw [hft] at h; simp at h
      | some j =>
        rw [hft] at h
        simp at h
        subst h
        simp only [List.set]
        rw [List.find?_cons_of_neg _ (by simpa using ha)]
        exact ih j hft

theorem find?_append_drop (l : List HistEntry) (e : HistEntry) (k : Nat)
    (hk : k ≤ l.length)
    (hnone : ∀ x ∈ l, x.dayKey ≠ e.dayKey) :
    ((l ++ [e]).drop k).find? (fun x => x.dayKey = e.dayKey) = some e := by
  rw [List.drop_append_of_le_length hk, List.find?_append]
  have h1 : (l.drop k).find? (fun x => x.dayKey = e.dayKey) = none := by
    rw [List.find?_eq_none]
    intro x hx
    simpa using hnone x (List.mem_of_mem_drop hx)
  rw [h1]
  simp

theorem pushCheckInHistory_replace (u : User) (e : HistEntry) (i : Nat)
    (hi : findDayIdx e.dayKey u.checkInHistory = some i)
    (hlen : u.checkInHistory.length ≤ 21) :
    (pushCheckInHistory u e).checkInHistory = u.checkInHistory.set i e := by
  simp only [pushCheckInHistory, hi]
  rw [if_neg (by simp only [List.length_set]; omega)]

theorem pushCheckInHistory_histOK (u : User) (e : HistEntry)
    (h : histOK u.checkInHistory) :
    histOK (pushCheckInHistory u e).checkInHistory := by
  obtain ⟨hlen, hnd⟩ := h
  cases hf : findDayIdx e.dayKey u.checkInHistory with
  | some i =>
    rw [pushCheckInHistory_replace u e i hf hlen]
    exact ⟨by simp [hlen], by rw [findDayIdx_set_map e _ i hf]; exact hnd⟩
  | none =>
    have hnotin : e.dayKey ∉ u.checkInHistory.map HistEntry.dayKey := by
      intro hmem
      obtain ⟨x, hx, hk⟩ := List.mem_map.mp hmem
      exact findDayIdx_none_forall _ _ hf x hx hk
    have hnd2 : ((u.checkInHistory ++ [e]).map HistEntry.dayKey).Nodup := by
      rw [List.map_append]
      refine List.Nodup.append hnd (by simp) ?_
      intro a ha hb
      simp only [List.map_cons, List.map_nil, List.mem_singleton] at hb
      subst hb
      exact hnotin ha
    simp only [pushCheckInHistory, hf]
    split
    next hgt =>
      constructor
      · simp only [List.length_drop]
        omega
      · rw [List.map_drop]
        exact List.Sublist.nodup (List.drop_sublist _ _) hnd2
    next hgt =>
      refine ⟨?_, hnd2⟩
      simp only [List.length_append, List.length_cons, List.length_nil] at hgt ⊢
      omega

theorem pushCheckInHistory_find (u : User) (e : HistEntry)
    (hlen : u.checkInHistory.length ≤ 21) :
    (pushCheckInHistory u e).checkInHistory.find? (fun x => x.dayKey = e.dayKey)
      = some e := by
  cases hf : findDayIdx e.dayKey u.checkInHistory with
  | some i =>
    rw [pushCheckInHistory_replace u e i hf hlen]
    exact find?_set_eq e _ i hf
  | none =>
    have hnone := findDayIdx_none_forall _ _ hf
    simp only [pushCheckInHistory, hf]
    split
    next hgt =>
      refine find?_append_drop _ _ _ ?_ hnone
      simp only [List.length_append, List.length_cons, List.length_nil]
      omega
    next hgt =>
      have hz := find?_append_drop u.checkInHistory e 0 (Nat.zero_le _) hnone
      simpa using hz

/-! # Sweep lemmas -/

theorem markMissing_already (nid : Nat) (u : User) (now : Nat) (reason : String)
    (h : u.status = "missing") : markMissing nid u now reason = (u, nid) := by
  unfold markMissing
  rw [if_pos h]

theorem markMissing_missing (nid : Nat) (u : User) (now : Nat) (reason : String)
    (h : u.status ≠ "missing") :
    markMissing nid u now reason =
      ({ u with
          status := "missing"
          missingSince := some (u.lastCheckInAt.getD now)
          dangerZone := some {
            id := nid
            type := "danger-zone"
            reason := reason
            userId := u.id
            name := u.name
            location := u.lastKnownLocation
            lastSeenAt := u.lastCheckInAt.getD now } }, nid + 1) := by
  unfold markMissing
  rw [if_neg h]
  dsimp only
  cases hl : u.lastKnownLocation <;> simp [hl]

theorem sweepUsers_cons_of_missing (nid now : Nat) (u : User) (l : List User)
    (h : u.status = "missing") :
    sweepUsers nid now (u :: l) =
      ((u :: (sweepUsers nid now l).1, (sweepUsers nid now l).2)) := by
  simp [sweepUsers, h]

theorem sweepUsers_cons_mark (nid now : Nat) (u : User) (l : List User)
    (hm : u.status ≠ "missing")
    (hs : isOlderThanYesterdayDayKey u.lastCheckInDayKey now = true) :
    sweepUsers nid now (u :: l) =
      ((markMissing nid u now "streak-broken").1
          :: (sweepUsers (markMissing nid u now "streak-broken").2 now l).1,
        (sweepUsers (markMissing nid u now "streak-broken").2 now l).2) := by
  simp [sweepUsers, hm, hs]

theorem sweepUsers_cons_skip (nid now : Nat) (u : User) (l : List User)
    (hm : u.status ≠ "missing")
    (hs : isOlderThanYesterdayDayKey u.lastCheckInDayKey now = false) :
    sweepUsers nid now (u :: l) =
      ((u :: (sweepUsers nid now l).1, (sweepUsers nid now l).2)) := by
  simp [sweepUsers, hm, hs]

theorem sweepUsers_idem (now : Nat) (l : List User) : ∀ nid : Nat,
    sweepUsers (sweepUsers nid now l).2 now (sweepUsers nid now l).1
      = ((sweepUsers nid now l).1, (sweepUsers nid now l).2) := by
  induction l with
  | nil => intro nid; simp [sweepUsers]
  | cons u t ih =>
    intro nid
    by_cases hm : u.status = "missing"
    · rw [sweepUsers_cons_of_missing _ _ _ _ hm]
      dsimp only
      rw [sweepUsers_cons_of_missing _ _ _ _ hm]
      rw [ih nid]
    · by_cases hs : isOlderThanYesterdayDayKey u.lastCheckInDayKey now = true
      · rw [sweepUsers_cons_mark _ _ _ _ hm hs]
        dsimp only
        have hmStatus : (markMissing nid u now "streak-broken").1.status
            = "missing" := by
          rw [markMissing_missing nid u now _ hm]
        rw [sweepUsers_cons_of_missing _ _ _ _ hmStatus]
        rw [ih (markMissing nid u now "streak-broken").2]
      · have hs' : isOlderThanYesterdayDayKey u.lastCheckInDayKey now = false := by
          simpa using hs
        rw [sweepUsers_cons_skip _ _ _ _ hm hs']
        dsimp only
        rw [sweepUsers_cons_skip _ _ _ _ hm hs']
        rw [ih nid]

/-! # Claim C6 -/

/-- C6: the sweep is idempotent — a second sweep at the same time changes
nothing (in particular it leaves every already-missing participant's
danger-zone record id and `missingSince` untouched), and the sweep step on
a participant already in missing status returns them unchanged without
consuming a fresh id. -/
theorem C6_sweep_idempotent (st : SState) (now : Nat) (u : User)
    (hu : u.status = "missing") :
    sweepForBrokenStreaks (sweepForBrokenStreaks st now) now
        = sweepForBrokenStreaks st now
    ∧ sweepUsers st.nextId now [u] = ([u], st.nextId) := by
  constructor
  · unfold sweepForBrokenStreaks
    dsimp only
    rw [sweepUsers_idem now st.users st.nextId]
  · simp [sweepUsers, hu]

/-! # Claim C7 -/

/-- C7: the sweep step on a not-yet-missing participant with a stale last
check-in day marks them missing with `missingSince = lastCheckInAt`
(falling back to `now`), and materializes a danger-zone record carrying
the next fresh id (advancing the id source), reason "streak-broken", the
participant's id and name, the current last known location, and
`lastSeenAt = lastCheckInAt` (falling back to `now`). -/
theorem C7_transition_record (nid now : Nat) (u : User)
    (h1 : u.status ≠ "missing")
    (h2 : isOlderThanYesterdayDayKey u.lastCheckInDayKey now = true) :
    sweepUsers nid now [u] =
      ([{ u with
          status := "missing"
          missingSince := some (u.lastCheckInAt.getD now)
          dangerZone := some {
            id := nid
            type := "danger-zone"
            reason := "streak-broken"
            userId := u.id
            name := u.name
            location := u.lastKnownLocation
            lastSeenAt := u.lastCheckInAt.getD now } }], nid + 1) := by
  simp only [sweepUsers, if_neg h1, h2, if_pos,
    markMissing_missing nid u now "streak-broken" h1]

/-! # History invariant across whole runs -/

theorem mem_updateUser (l : List User) (id : String) (w v : User)
    (h : v ∈ updateUser l id w) : v ∈ l ∨ v = w := by
  simp only [updateUser, List.mem_map] at h
  obtain ⟨x, hx, hfx⟩ := h
  by_cases hxid : x.id = id
  · rw [if_pos hxid] at hfx
    right
    exact hfx.symm
  · rw [if_neg hxid] at hfx
    left
    exact hfx ▸ hx

theorem checkInUserUpdate_checkInHistory (u : User) (loc : Option LocInput)
    (note : Option String) (now : Nat) :
    (checkInUserUpdate u loc note now).checkInHistory =
      (pushCheckInHistory u
        { dayKey := utcDayKey now, atMs := now, location := asLocation loc,
          note := normalizeCheckInNote note }).checkInHistory := by
  unfold checkInUserUpdate
  cases asLocation loc
  all_goals
    dsimp only
    split_ifs <;> rfl

theorem usersHistOK_getOrCreateUser (st : SState) (uid nm : Option String)
    (u : User) (st' : SState)
    (h : getOrCreateUser st uid nm = .ok (u, st')) (hok : usersHistOK st) :
    usersHistOK st' ∧ histOK u.checkInHistory := by
  simp only [getOrCreateUser] at h
  split at h
  next hid => exact absurd h (by simp)
  next hid =>
    split at h
    next hf =>
      simp only [Except.ok.injEq, Prod.mk.injEq] at h
      obtain ⟨hu, hst⟩ := h
      subst hu
      subst hst
      constructor
      · intro v hv
        rcases List.mem_append.mp hv with hv' | hv'
        · exact hok v hv'
        · simp only [List.mem_singleton] at hv'
          subst hv'
          exact ⟨by simp, by simp⟩
      · exact ⟨by simp, by simp⟩
    next user hf =>
      have huser := hok user (findUser_mem _ _ _ hf)
      split at h <;>
          simp only [Except.ok.injEq, Prod.mk.injEq] at h <;>
          obtain ⟨hu, hst⟩ := h <;> subst hu <;> subst hst
      · exact ⟨hok, huser⟩
      · constructor
        · intro v hv
          rcases mem_updateUser _ _ _ _ hv with hv' | hv'
          · exact hok v hv'
          · subst hv'
            exact huser
        · exact huser

theorem usersHistOK_checkIn (st : SState) (uid nm : Option String)
    (loc : Option LocInput) (note : Option String) (now : Nat)
    (u1 : User) (st1 : SState)
    (h : checkIn st uid nm loc note now = .ok (u1, st1)) (hok : usersHistOK st) :
    usersHistOK st1 := by
  unfold checkIn at h
  cases hg : getOrCreateUser st uid nm with
  | error e => rw [hg] at h; exact absurd h (by simp)
  | ok r =>
    obtain ⟨u0, stA⟩ := r
    rw [hg] at h
    simp only [Except.ok.injEq, Prod.mk.injEq] at h
    obtain ⟨hu, hst⟩ := h
    subst hu
    subst hst
    obtain ⟨hokA, hok0⟩ := usersHistOK_getOrCreateUser st uid nm u0 stA hg hok
    intro v hv
    rcases mem_updateUser _ _ _ _ hv with hv' | hv'
    · exact hokA v hv'
    · subst hv'
      rw [checkInUserUpdate_checkInHistory]
      exact pushCheckInHistory_histOK u0 _ hok0

theorem markMissing_checkInHistory (nid : Nat) (u : User) (now : Nat)
    (reason : String) :
    (markMissing nid u now reason).1.checkInHistory = u.checkInHistory := by
  by_cases hm : u.status = "missing"
  · rw [markMissing_already nid u now reason hm]
  · rw [markMissing_missing nid u now reason hm]

theorem usersHistOK_sweepUsers (now : Nat) (l : List User) : ∀ nid : Nat,
    (∀ u ∈ l, histOK u.checkInHistory) →
    ∀ v ∈ (sweepUsers nid now l).1, histOK v.checkInHistory := by
  induction l with
  | nil => intro nid h v hv; simp [sweepUsers] at hv
  | cons u t ih =>
    intro nid h v hv
    have hu := h u (by simp)
    have ht : ∀ x ∈ t, histOK x.checkInHistory := fun x hx => h x (by simp [hx])
    by_cases hm : u.status = "missing"
    · rw [sweepUsers_cons_of_missing _ _ _ _ hm] at hv
      dsimp only at hv
      rcases List.mem_cons.mp hv with rfl | hv'
      · exact hu
      · exact ih nid ht v hv'
    · by_cases hs : isOlderThanYesterdayDayKey u.lastCheckInDayKey now = true
      · rw [sweepUsers_cons_mark _ _ _ _ hm hs] at hv
        dsimp only at hv
        rcases List.mem_cons.mp hv with rfl | hv'
        · rw [markMissing_checkInHistory]
          exact hu
        · exact ih _ ht v hv'
      · have hs' : isOlderThanYesterdayDayKey u.lastCheckInDayKey now = false := by
          simpa using hs
        rw [sweepUsers_cons_skip _ _ _ _ hm hs'] at hv
        dsimp only at hv
        rcases List.mem_cons.mp hv with rfl | hv'
        · exact hu
        · exact ih nid ht v hv'

theorem usersHistOK_applyOp (st : SState) (op : Op) (h : usersHistOK st) :
    usersHistOK (applyOp st op) := by
  cases op with
  | getOrCreate uid nm =>
    dsimp only [applyOp]
    cases hg : getOrCreateUser st uid nm with
    | error e => exact h
    | ok r =>
      dsimp only
      exact (usersHistOK_getOrCreateUser st uid nm r.1 r.2 hg h).1
  | checkin uid nm loc note now =>
    dsimp only [applyOp]
    cases hg : checkIn st uid nm loc note now with
    | error e => exact h
    | ok r =>
      dsimp only
      exact usersHistOK_checkIn st uid nm loc note now r.1 r.2 hg h
  | sweep now =>
    dsimp only [applyOp]
    unfold sweepForBrokenStreaks
    intro v hv
    exact usersHistOK_sweepUsers now st.users st.nextId h v hv
  | listDangerZones now =>
    dsimp only [applyOp]
    unfold dangerZones sweepForBrokenStreaks
    intro v hv
    exact usersHistOK_sweepUsers now st.users st.nextId h v hv

theorem runOps_histOK (ops : List Op) : usersHistOK (runOps ops) := by
  have key : ∀ st, usersHistOK st → usersHistOK (ops.foldl applyOp st) := by
    induction ops with
    | nil => intro st h; exact h
    | cons op rest ih =>
      intro st h
      exact ih (applyOp st op) (usersHistOK_applyOp st op h)
  exact key initState (fun u hu => by simp [initState] at hu)

/-! # Claim C5 -/

/-- C5: starting from the empty registry, any sequence of core operations
leaves every stored participant's `checkInHistory` with at most 21 entries
and pairwise-distinct day keys; moreover pushing a check-in entry whose
day key is already recorded at position `i` replaces that entry in place
(`List.set` at `i`) without changing the history's length. -/
theorem C5_history_invariant (ops : List Op) (u : User)
    (hu : u ∈ (runOps ops).users)
    (e : HistEntry) (i : Nat)
    (hi : findDayIdx e.dayKey u.checkInHistory = some i) :
    (u.checkInHistory.length ≤ 21
      ∧ (u.checkInHistory.map HistEntry.dayKey).Nodup)
    ∧ (pushCheckInHistory u e).checkInHistory = u.checkInHistory.set i e
    ∧ (pushCheckInHistory u e).checkInHistory.length
        = u.checkInHistory.length := by
  obtain ⟨hlen, hnd⟩ := runOps_histOK ops u hu
  have hrep := pushCheckInHistory_replace u e i hi hlen
  refine ⟨⟨hlen, hnd⟩, hrep, ?_⟩
  rw [hrep]
  simp

/-! # Claim C1 -/

theorem sweepUsers_mem_marks (now : Nat) (u : User)
    (hs : u.status ≠ "missing")
    (hstale : isOlderThanYesterdayDayKey u.lastCheckInDayKey now = true) :
    ∀ (l : List User) (nid : Nat), u ∈ l →
      ∃ dz : DangerZone,
        (∃ v ∈ (sweepUsers nid now l).1,
          v.status = "missing" ∧ v.dangerZone = some dz)
        ∧ dz.userId = u.id ∧ dz.location = u.lastKnownLocation := by
  intro l
  induction l with
  | nil => intro nid h; cases h
  | cons a t ih =>
    intro nid hmem
    rcases List.mem_cons.mp hmem with rfl | hmem'
    · refine ⟨⟨nid, "danger-zone", "streak-broken", u.id, u.name,
        u.lastKnownLocation, u.lastCheckInAt.getD now⟩, ?_, rfl, rfl⟩
      rw [sweepUsers_cons_mark _ _ _ _ hs hstale]
      dsimp only
      refine ⟨(markMissing nid u now "streak-broken").1, by simp, ?_⟩
      rw [markMissing_missing nid u now _ hs]
      exact ⟨rfl, rfl⟩
    · obtain ⟨dz, ⟨v, hv, hvs, hvd⟩, h1, h2⟩ := ih nid hmem'
      by_cases hm : a.status = "missing"
      · refine ⟨dz, ⟨v, ?_, hvs, hvd⟩, h1, h2⟩
        rw [sweepUsers_cons_of_missing _ _ _ _ hm]
        simp [hv]
      · by_cases hsa : isOlderThanYesterdayDayKey a.lastCheckInDayKey now = true
        · obtain ⟨dz', ⟨v', hv', hvs', hvd'⟩, h1', h2'⟩ :=
            ih (markMissing nid a now "streak-broken").2 hmem'
          refine ⟨dz', ⟨v', ?_, hvs', hvd'⟩, h1', h2'⟩
          rw [sweepUsers_cons_mark _ _ _ _ hm hsa]
          simp [hv']
        · have hsa' : isOlderThanYesterdayDayKey a.lastCheckInDayKey now
              = false := by simpa using hsa
          refine ⟨dz, ⟨v, ?_, hvs, hvd⟩, h1, h2⟩
          rw [sweepUsers_cons_skip _ _ _ _ hm hsa']
          simp [hv]

/-- C1 (amended): a participant who is not yet missing, whose last
check-in day key is stale, and who has no last known location is still
materialized into a non-null danger-zone record — with a null `location`
field — and `dangerZones` (which sweeps first) does include a record for
them in its result, contrary to the claimed exclusion. -/
theorem C1_missing_without_location (st : SState) (now : Nat) (u : User)
    (hu : u ∈ st.users) (hs : u.status ≠ "missing")
    (hstale : isOlderThanYesterdayDayKey u.lastCheckInDayKey now = true)
    (hloc : u.lastKnownLocation = none) :
    ((dangerZones st now).1.any
      (fun dz => dz.userId == u.id && dz.location == none)) = true := by
  obtain ⟨dz, ⟨v, hv, hvs, hvd⟩, h1, h2⟩ :=
    sweepUsers_mem_marks now u hs hstale st.users st.nextId hu
  rw [List.any_eq_true]
  refine ⟨dz, ?_, ?_⟩
  · unfold dangerZones sweepForBrokenStreaks
    dsimp only
    rw [List.mem_filterMap]
    exact ⟨v, hv, by simp [hvs, hvd]⟩
  · simp [h1, h2, hloc]

/-- C1 (counterexample to the claim as stated): `p1` checks in at `tD`
with no location and is swept three days later; the stored participant is
missing with no last known location, yet `dangerZone` is not null and
`dangerZones` lists a record for `p1`. -/
theorem C1_counterexample :
    c1user.status = "missing" ∧ c1user.lastKnownLocation = none
    ∧ c1user.dangerZone ≠ none
    ∧ c1res.1.map DangerZone.userId = ["p1"] := by decide

/-! # Claim C10 -/

theorem findUser_updateUser_of_eq (users : List User) (key : String) (v : User)
    (h : (findUser users key).isSome) (hv : v.id = key) :
    findUser (updateUser users v.id v) key = some v := by
  rw [hv]
  exact findUser_updateUser_key users key v hv h

theorem checkIn_ok_parts (st : SState) (uid nm : Option String)
    (loc : Option LocInput) (note : Option String) (now : Nat)
    (u1 : User) (st1 : SState)
    (hc : checkIn st uid nm loc note now = .ok (u1, st1)) :
    ∃ u0 stA, getOrCreateUser st uid nm = .ok (u0, stA)
      ∧ u1 = checkInUserUpdate u0 loc note now
      ∧ st1 = { stA with users := updateUser stA.users u1.id u1 } := by
  unfold checkIn at hc
  cases hg : getOrCreateUser st uid nm with
  | error e => rw [hg] at hc; exact absurd hc (by simp)
  | ok r =>
    obtain ⟨u0, stA⟩ := r
    rw [hg] at hc
    simp only [Except.ok.injEq, Prod.mk.injEq] at hc
    obtain ⟨hu, hst⟩ := hc
    subst hu
    subst hst
    exact ⟨u0, stA, rfl, rfl, rfl⟩

theorem getOrCreateUser_found (st : SState) (uid nm : Option String) (w : User)
    (hne : jsTrim (uid.getD "") ≠ "")
    (hf : findUser st.users (jsTrim (uid.getD "")) = some w) :
    ∃ u' st', getOrCreateUser st uid nm = .ok (u', st')
      ∧ u'.checkInHistory = w.checkInHistory
      ∧ u'.lastKnownLocation = w.lastKnownLocation
      ∧ u'.lastCheckInDayKey = w.lastCheckInDayKey := by
  simp only [getOrCreateUser, if_neg hne, hf]
  split
  · exact ⟨w, st, rfl, rfl, rfl, rfl⟩
  · exact ⟨_, _, rfl, rfl, rfl, rfl⟩

/-- C10: check in with a valid location, then again on the same UTC day
with no location: the day's history entry is replaced by one recording
location null (and it is the only entry for that day), while the stored
`lastKnownLocation` still holds the location from the first check-in. -/
theorem C10_same_day_second_checkin (st : SState) (uid nm1 nm2 : Option String)
    (locIn : LocInput) (L : Location) (note1 note2 : Option String)
    (t1 t2 : Nat) (u1 : User) (st1 : SState) (u2 : User) (st2 : SState)
    (hOK : usersHistOK st)
    (hL : asLocation (some locIn) = some L)
    (h1 : checkIn st uid nm1 (some locIn) note1 t1 = .ok (u1, st1))
    (h2 : checkIn st1 uid nm2 none note2 t2 = .ok (u2, st2))
    (hday : utcDayKey t2 = utcDayKey t1) :
    u2.lastKnownLocation = some L
    ∧ u2.checkInHistory.find? (fun x => x.dayKey = utcDayKey t1)
        = some ⟨utcDayKey t2, t2, none, normalizeCheckInNote note2⟩
    ∧ (u2.checkInHistory.all (fun x =>
        !(x.dayKey == utcDayKey t1)
          || x == ⟨utcDayKey t2, t2, none, normalizeCheckInNote note2⟩)) = true := by
  obtain ⟨u0, stA, hg0, hu1, hst1⟩ :=
    checkIn_ok_parts st uid nm1 (some locIn) note1 t1 u1 st1 h1
  obtain ⟨hokA, hok0⟩ := usersHistOK_getOrCreateUser st uid nm1 u0 stA hg0 hOK
  obtain ⟨hid0, hfindA⟩ := getOrCreateUser_ok_find st uid nm1 u0 stA hg0
  have hne : jsTrim (uid.getD "") ≠ "" := by
    intro he
    have hbad := (getOrCreateUser_isOk_iff st uid nm1).mpr he
    rw [hg0] at hbad
    simp [Except.isOk, Except.toBool] at hbad
  subst hu1
  subst hst1
  have hidc : (checkInUserUpdate u0 (some locIn) note1 t1).id = u0.id :=
    checkInUserUpdate_id u0 (some locIn) note1 t1
  have hfind1 : findUser
      (updateUser stA.users (checkInUserUpdate u0 (some locIn) note1 t1).id
        (checkInUserUpdate u0 (some locIn) note1 t1))
      (jsTrim (uid.getD ""))
      = some (checkInUserUpdate u0 (some locIn) note1 t1) := by
    refine findUser_updateUser_of_eq stA.users (jsTrim (uid.getD "")) _ ?_
      (hidc.trans hid0)
    rw [← hid0]
    simp [hfindA]
  obtain ⟨u0', stA', hg0', hu2, hst2⟩ :=
    checkIn_ok_parts _ uid nm2 none note2 t2 u2 st2 h2
  obtain ⟨u1', stB, hg2, hH, hLoc, hKey⟩ :=
    getOrCreateUser_found
      { stA with
          users := updateUser stA.users
            (checkInUserUpdate u0 (some locIn) note1 t1).id
            (checkInUserUpdate u0 (some locIn) note1 t1) }
      uid nm2 (checkInUserUpdate u0 (some locIn) note1 t1) hne hfind1
  rw [hg2] at hg0'
  simp only [Except.ok.injEq, Prod.mk.injEq] at hg0'
  obtain ⟨he1, he2⟩ := hg0'
  subst he1
  subst he2
  have hX1 : u1'.checkInHistory
      = (pushCheckInHistory u0
          ⟨utcDayKey t1, t1, asLocation (some locIn),
            normalizeCheckInNote note1⟩).checkInHistory := by
    rw [hH, checkInUserUpdate_checkInHistory]
  have hOK1 : histOK u1'.checkInHistory := by
    rw [hX1]
    exact pushCheckInHistory_histOK u0 _ hok0
  have hOK2 : histOK u2.checkInHistory := by
    rw [hu2, checkInUserUpdate_checkInHistory]
    exact pushCheckInHistory_histOK u1' _ hOK1
  have hfind2 : u2.checkInHistory.find?
      (fun x => x.dayKey = utcDayKey t2)
      = some ⟨utcDayKey t2, t2, asLocation none, normalizeCheckInNote note2⟩ := by
    rw [hu2, checkInUserUpdate_checkInHistory]
    exact pushCheckInHistory_find u1'
      ⟨utcDayKey t2, t2, asLocation none, normalizeCheckInNote note2⟩ hOK1.1
  refine ⟨?_, ?_, ?_⟩
  · rw [hu2, checkInUserUpdate_lastKnownLocation]
    simp only [asLocation]
    rw [hLoc, checkInUserUpdate_lastKnownLocation, hL]
  · rw [← hday]
    simpa [asLocation] using hfind2
  · rw [List.all_eq_true]
    intro x hx
    by_cases hxk : x.dayKey = utcDayKey t1
    · have hmem2 : (⟨utcDayKey t2, t2, none, normalizeCheckInNote note2⟩ : HistEntry)
          ∈ u2.checkInHistory := by
        apply List.mem_of_find?_eq_some
        simpa [asLocation] using hfind2
      have hxe : x = (⟨utcDayKey t2, t2, none, normalizeCheckInNote note2⟩ : HistEntry) := by
        exact List.inj_on_of_nodup_map hOK2.2 hx hmem2 (by simp [hxk, hday])
      simp [hxe]
    · simp [hxk]

/-! # Witnesses: each hypothesis-bearing claim theorem applied at a
concrete input -/

/-- C1 witness: `p9` (status ok, stale day key, no location) is listed. -/
theorem C1_missing_without_location_witness :
    ((dangerZones c1wSt tD3).1.any
      (fun dz => dz.userId == c1wU.id && dz.location == none)) = true :=
  C1_missing_without_location c1wSt tD3 c1wU (by decide) (by decide)
    (by decide) (by decide)

/-- C2 witness: a first-ever check-in lands in the reset branch. -/
theorem C2_streak_transition_witness :
    (okUser c2check).streak =
      if c2u0.lastCheckInDayKey = some (utcDayKey tD) then c2u0.streak
      else if c2u0.lastCheckInDayKey = some (utcYesterdayDayKey tD) then
        max 1 (c2u0.streak + 1)
      else 1 :=
  C2_streak_transition initState (some "p2") none none none tD c2u0 c2stA
    (okUser c2check) (okState c2check) (by rfl) (by rfl)

/-- C4 witness: `p1` checks in while missing; everything is cleared. -/
theorem C4_checkin_clears_witness :
    (okUser c4check).status = "ok" ∧ (okUser c4check).missingSince = none
    ∧ (okUser c4check).dangerZone = none
    ∧ (okUser c4check).lastCheckInAt = some tD3
    ∧ (okUser c4check).lastCheckInDayKey = some (utcDayKey tD3)
    ∧ findUser (okState c4check).users (okUser c4check).id
        = some (okUser c4check) :=
  C4_checkin_clears c1res.2 (some "p1") none none none tD3
    (okUser c4check) (okState c4check) (by rfl)

/-- C5 witness: after one check-in run, a same-day push replaces entry 0. -/
theorem C5_history_invariant_witness :
    (c5u.checkInHistory.length ≤ 21
      ∧ (c5u.checkInHistory.map HistEntry.dayKey).Nodup)
    ∧ (pushCheckInHistory c5u c5e).checkInHistory = c5u.checkInHistory.set 0 c5e
    ∧ (pushCheckInHistory c5u c5e).checkInHistory.length
        = c5u.checkInHistory.length :=
  C5_history_invariant c5ops c5u (by decide) c5e 0 (by decide)

/-- C6 witness: a registry holding one already-missing participant. -/
theorem C6_sweep_idempotent_witness :
    sweepForBrokenStreaks (sweepForBrokenStreaks c6st tD3) tD3
        = sweepForBrokenStreaks c6st tD3
    ∧ sweepUsers c6st.nextId tD3 [c6u] = ([c6u], c6st.nextId) :=
  C6_sweep_idempotent c6st tD3 c6u (by decide)

/-- C7 witness: stale `p7` with location is marked with record id 5. -/
theorem C7_transition_record_witness :
    sweepUsers 5 tD3 [c7u] =
      ([{ c7u with
          status := "missing"
          missingSince := some (c7u.lastCheckInAt.getD tD3)
          dangerZone := some {
            id := 5
            type := "danger-zone"
            reason := "streak-broken"
            userId := c7u.id
            name := c7u.name
            location := c7u.lastKnownLocation
            lastSeenAt := c7u.lastCheckInAt.getD tD3 } }], 5 + 1) :=
  C7_transition_record 5 tD3 c7u (by decide) (by decide)

/-- C9 witness: the repeat call for `p8` with name "Bo" only renames. -/
theorem C9_getOrCreate_idempotent_witness :
    getOrCreateUser (okState c9call1) (some "p8") (some "Bo")
      = .ok (c9u2, c9st2) :=
  (C9_getOrCreate_idempotent initState (some "p8") (some "AliceOriginal")
    (okUser c9call1) (okState c9call1) (by rfl)).2 "Bo" (by decide)

/-- C10 witness: `pX` checks in at `tD` with location, then an hour later
without one. -/
theorem C10_same_day_second_checkin_witness :
    (okUser c10call2).lastKnownLocation = some ⟨10, 20⟩
    ∧ (okUser c10call2).checkInHistory.find?
        (fun x => x.dayKey = utcDayKey tD)
        = some ⟨utcDayKey tDh, tDh, none, normalizeCheckInNote none⟩
    ∧ ((okUser c10call2).checkInHistory.all (fun x =>
        !(x.dayKey == utcDayKey tD)
          || x == ⟨utcDayKey tDh, tDh, none, normalizeCheckInNote none⟩))
        = true :=
  C10_same_day_second_checkin initState (some "pX") none none c10loc ⟨10, 20⟩
    (some "fine") none tD tDh (okUser c10call1) (okState c10call1)
    (okUser c10call2) (okState c10call2)
    (by intro u hu; simp [initState] at hu) (by decide) (by rfl) (by rfl)
    (by decide)

end Maketon
